import Mathlib

set_option maxRecDepth 40000

/-!
# Verification of the solana-fellow HTTP handler core

A shallow embedding of the five Rust source files of the repository
(`src/routes/message.rs`, `src/routes/keypair.rs`, `src/routes/token.rs`,
`src/routes/transfer.rs`, `src/main.rs`) together with the parts of their
direct dependencies that the handlers call into:

* the `bs58` crate (Bitcoin-alphabet base-58 encoding and decoding),
* the `base64` crate's `general_purpose::STANDARD` engine
  (standard alphabet, canonical padding required on decode),
* `ed25519-dalek` 1.x (`Keypair::from_bytes`, `PublicKey::from_bytes`,
  Ed25519 signing and verification, backed by `curve25519-dalek`'s
  Edwards-point decompression), including SHA-512,
* `solana_program` (`Pubkey::from_str`, `system_instruction::transfer`) and
  `spl_token::instruction` (`initialize_mint`, `mint_to`, `transfer`).

Bytes are modelled as `Nat` values (< 256 where relevant), byte strings as
`List Nat`, machine integers as `Nat` with explicit `% 2 ^ 64` where the Rust
code relies on fixed width.  Fallible operations return `Option` or
`Except String`.  All definitions are executable.
-/

/-! ## Little-endian digit strings and fixed-width byte encodings -/

/-- Little-endian digits of `n` in base `base`, fuel-driven so that the kernel
can evaluate it.  `digitsLEAux base fuel n` is meaningful whenever
`n ≤ fuel`. -/
def digitsLEAux (base : Nat) : Nat → Nat → List Nat
  | 0, _ => []
  | fuel + 1, n => if n = 0 then [] else n % base :: digitsLEAux base fuel (n / base)

/-- Little-endian digits of `n` in base `base` (no leading, i.e. trailing,
zeros; `digitsLE base 0 = []`). -/
def digitsLE (base n : Nat) : List Nat := digitsLEAux base n n

/-- Value of a little-endian digit string in base `base`. -/
def ofDigitsLE (base : Nat) (ds : List Nat) : Nat :=
  ds.foldr (fun d acc => d + base * acc) 0

/-- Value of a big-endian digit string in base `base` (the accumulator loop
used by the `bs58` crate's big-integer conversion). -/
def ofDigitsBE (base : Nat) (ds : List Nat) : Nat :=
  ds.foldl (fun acc d => acc * base + d) 0

/-- `n` written as exactly `width` little-endian base-256 bytes
(mod `256 ^ width`); models Rust's `to_le_bytes` style encodings. -/
def natToLEBytes : Nat → Nat → List Nat
  | 0, _ => []
  | width + 1, n => n % 256 :: natToLEBytes width (n / 256)

/-- `n` written as exactly `width` big-endian base-256 bytes. -/
def natToBEBytes (width n : Nat) : List Nat := (natToLEBytes width n).reverse

/-- Value of a little-endian byte string. -/
def leVal (bytes : List Nat) : Nat := ofDigitsLE 256 bytes

/-- Models `u64::to_le_bytes` (8 bytes, little-endian). -/
def u64LE (n : Nat) : List Nat := natToLEBytes 8 (n % 2 ^ 64)

/-- Models `u32::to_le_bytes` (4 bytes, little-endian); used by `bincode`'s
encoding of the `SystemInstruction` enum tag. -/
def u32LE (n : Nat) : List Nat := natToLEBytes 4 (n % 2 ^ 32)

/-- Number of leading zero entries of a list. -/
def countLeadZeros : List Nat → Nat
  | [] => 0
  | x :: xs => if x = 0 then countLeadZeros xs + 1 else 0

/-- The list with its leading zero entries removed. -/
def dropLeadZeros : List Nat → List Nat
  | [] => []
  | x :: xs => if x = 0 then dropLeadZeros xs else x :: xs

/-! ## Base-58 (the `bs58` crate, Bitcoin alphabet)

`bs58::encode(bytes).into_string()` converts the byte string, read as a
big-endian big integer, to base-58 digits and prepends one `'1'` per leading
zero byte; `bs58::decode(s).into_vec()` is the inverse and fails on any
character outside the alphabet. -/

/-- The Bitcoin base-58 alphabet used by the `bs58` crate. -/
def b58Chars : List Char :=
  ['1', '2', '3', '4', '5', '6', '7', '8', '9',
   'A', 'B', 'C', 'D', 'E', 'F', 'G', 'H', 'J', 'K', 'L', 'M', 'N',
   'P', 'Q', 'R', 'S', 'T', 'U', 'V', 'W', 'X', 'Y', 'Z',
   'a', 'b', 'c', 'd', 'e', 'f', 'g', 'h', 'i', 'j', 'k', 'm', 'n', 'o',
   'p', 'q', 'r', 's', 't', 'u', 'v', 'w', 'x', 'y', 'z']

/-- Index of a character in a list (`none` if absent). -/
def charIndex : List Char → Char → Option Nat
  | [], _ => none
  | a :: rest, c => if c = a then some 0 else (charIndex rest c).map (· + 1)

/-- Digit values of a base-58 string; `none` if any character is outside the
alphabet (the crate's decode error). -/
def b58Vals : List Char → Option (List Nat)
  | [] => some []
  | c :: cs =>
    match charIndex b58Chars c, b58Vals cs with
    | some v, some vs => some (v :: vs)
    | _, _ => none

/-- Models `bs58::encode(bytes).into_string()`. -/
def bs58Encode (bytes : List Nat) : String :=
  String.mk (List.replicate (countLeadZeros bytes) '1' ++
    (digitsLE 58 (ofDigitsBE 256 bytes)).reverse.map (fun d => b58Chars.getD d '1'))

/-- Models `bs58::decode(s).into_vec()`. -/
def bs58Decode (s : String) : Option (List Nat) :=
  match b58Vals s.data with
  | none => none
  | some ds =>
    some (List.replicate (countLeadZeros ds) 0 ++ (digitsLE 256 (ofDigitsBE 58 ds)).reverse)

/-! ## Base-64 (the `base64` crate, `general_purpose::STANDARD` engine)

Standard alphabet, encoding emits padding, decoding requires canonical
padding and rejects non-zero trailing bits
(`GeneralPurposeConfig::new()`: `encode_padding = true`,
`decode_allow_trailing_bits = false`,
`decode_padding_mode = RequireCanonical`). -/

/-- The standard base-64 alphabet. -/
def b64Chars : List Char :=
  ['A', 'B', 'C', 'D', 'E', 'F', 'G', 'H', 'I', 'J', 'K', 'L', 'M',
   'N', 'O', 'P', 'Q', 'R', 'S', 'T', 'U', 'V', 'W', 'X', 'Y', 'Z',
   'a', 'b', 'c', 'd', 'e', 'f', 'g', 'h', 'i', 'j', 'k', 'l', 'm',
   'n', 'o', 'p', 'q', 'r', 's', 't', 'u', 'v', 'w', 'x', 'y', 'z',
   '0', '1', '2', '3', '4', '5', '6', '7', '8', '9', '+', '/']

/-- Character for a 6-bit value. -/
def b64Char (v : Nat) : Char := b64Chars.getD v 'A'

/-- Models `STANDARD.encode(bytes)`: 3-byte groups to 4 characters,
`=`-padded final group. -/
def base64Encode : List Nat → String
  | [] => ""
  | [b0] =>
    String.mk [b64Char (b0 / 4), b64Char (b0 % 4 * 16), '=', '=']
  | [b0, b1] =>
    String.mk [b64Char (b0 / 4), b64Char (b0 % 4 * 16 + b1 / 16), b64Char (b1 % 16 * 4), '=']
  | b0 :: b1 :: b2 :: rest =>
    String.mk [b64Char (b0 / 4), b64Char (b0 % 4 * 16 + b1 / 16),
               b64Char (b1 % 16 * 4 + b2 / 64), b64Char (b2 % 64)] ++ base64Encode rest

/-- Decode a run of base-64 characters, 4 at a time; the `=`-padded forms are
legal only as the final quartet, and trailing bits must be zero. -/
def base64DecodeChunks : List Char → Option (List Nat)
  | [] => some []
  | c0 :: c1 :: c2 :: c3 :: rest =>
    match charIndex b64Chars c0, charIndex b64Chars c1 with
    | some v0, some v1 =>
      if c2 = '=' then
        -- canonical "xx==" final quartet: low 4 bits of v1 must be zero
        if c3 = '=' ∧ rest = [] ∧ v1 % 16 = 0 then some [v0 * 4 + v1 / 16] else none
      else
        match charIndex b64Chars c2 with
        | some v2 =>
          if c3 = '=' then
            -- canonical "xxx=" final quartet: low 2 bits of v2 must be zero
            if rest = [] ∧ v2 % 4 = 0 then
              some [v0 * 4 + v1 / 16, v1 % 16 * 16 + v2 / 4]
            else none
          else
            match charIndex b64Chars c3, base64DecodeChunks rest with
            | some v3, some bs =>
              some ([v0 * 4 + v1 / 16, v1 % 16 * 16 + v2 / 4, v2 % 4 * 64 + v3] ++ bs)
            | _, _ => none
        | none => none
    | _, _ => none
  | _ => none

/-- Models `STANDARD.decode(s)` (canonical padding required, so the length
must be a multiple of four). -/
def base64Decode (s : String) : Option (List Nat) := base64DecodeChunks s.data

/-! ## SHA-512 (the `sha2` crate, as used by `ed25519-dalek`)

Pure FIPS 180-4 SHA-512 over byte lists; words are `Nat` values kept below
`2 ^ 64` by explicit reduction. -/

/-- The eight initial SHA-512 hash words. -/
def shaH0 : List Nat :=
  [7640891576956012808, 13503953896175478587, 4354685564936845355,
   11912009170470909681, 5840696475078001361, 11170449401992604703,
   2270897969802886507, 6620516959819538809]

/-- The eighty SHA-512 round constants. -/
def shaK : List Nat :=
  [4794697086780616226, 8158064640168781261, 13096744586834688815,
   16840607885511220156, 4131703408338449720, 6480981068601479193,
   10538285296894168987, 12329834152419229976, 15566598209576043074,
   1334009975649890238, 2608012711638119052, 6128411473006802146,
   8268148722764581231, 9286055187155687089, 11230858885718282805,
   13951009754708518548, 16472876342353939154, 17275323862435702243,
   1135362057144423861, 2597628984639134821, 3308224258029322869,
   5365058923640841347, 6679025012923562964, 8573033837759648693,
   10970295158949994411, 12119686244451234320, 12683024718118986047,
   13788192230050041572, 14330467153632333762, 15395433587784984357,
   489312712824947311, 1452737877330783856, 2861767655752347644,
   3322285676063803686, 5560940570517711597, 5996557281743188959,
   7280758554555802590, 8532644243296465576, 9350256976987008742,
   10552545826968843579, 11727347734174303076, 12113106623233404929,
   14000437183269869457, 14369950271660146224, 15101387698204529176,
   15463397548674623760, 17586052441742319658, 1182934255886127544,
   1847814050463011016, 2177327727835720531, 2830643537854262169,
   3796741975233480872, 4115178125766777443, 5681478168544905931,
   6601373596472566643, 7507060721942968483, 8399075790359081724,
   8693463985226723168, 9568029438360202098, 10144078919501101548,
   10430055236837252648, 11840083180663258601, 13761210420658862357,
   14299343276471374635, 14566680578165727644, 15097957966210449927,
   16922976911328602910, 17689382322260857208, 500013540394364858,
   748580250866718886, 1242879168328830382, 1977374033974150939,
   2944078676154940804, 3659926193048069267, 4368137639120453308,
   4836135668995329356, 5532061633213252278, 6448918945643986474,
   6902733635092675308, 7801388544844847127]

/-- 64-bit rotate right. -/
def rotr64 (w n : Nat) : Nat := ((n >>> w) ||| (n <<< (64 - w))) % 2 ^ 64

/-- SHA-512 small sigma 0. -/
def shaLowSigma0 (x : Nat) : Nat := rotr64 1 x ^^^ rotr64 8 x ^^^ (x >>> 7)

/-- SHA-512 small sigma 1. -/
def shaLowSigma1 (x : Nat) : Nat := rotr64 19 x ^^^ rotr64 61 x ^^^ (x >>> 6)

/-- SHA-512 big Sigma 0. -/
def shaBigSigma0 (x : Nat) : Nat := rotr64 28 x ^^^ rotr64 34 x ^^^ rotr64 39 x

/-- SHA-512 big Sigma 1. -/
def shaBigSigma1 (x : Nat) : Nat := rotr64 14 x ^^^ rotr64 18 x ^^^ rotr64 41 x

/-- Split a list into chunks of `k` elements (fuel-driven on the length). -/
def chunksAux (k : Nat) : Nat → List Nat → List (List Nat)
  | 0, _ => []
  | _, [] => []
  | fuel + 1, l => l.take k :: chunksAux k fuel (l.drop k)

/-- Split a list into chunks of `k` elements. -/
def chunks (k : Nat) (l : List Nat) : List (List Nat) := chunksAux k l.length l

/-- FIPS 180-4 message padding: `0x80`, zeros, 16-byte big-endian bit
length, to a multiple of 128 bytes. -/
def shaPad (msg : List Nat) : List Nat :=
  msg ++ [0x80] ++ List.replicate ((128 - (msg.length + 17) % 128) % 128) 0 ++
    natToBEBytes 16 (8 * msg.length)

/-- Extend the sixteen message words to the eighty schedule words. -/
def shaExtend : Nat → List Nat → List Nat
  | 0, ws => ws
  | n + 1, ws =>
    shaExtend n (ws ++ [(shaLowSigma1 (ws.getD (ws.length - 2) 0) +
      ws.getD (ws.length - 7) 0 + shaLowSigma0 (ws.getD (ws.length - 15) 0) +
      ws.getD (ws.length - 16) 0) % 2 ^ 64])

/-- One SHA-512 round on the state `[a, b, c, d, e, f, g, h]` with the round
constant and schedule word `kw`. -/
def shaRound (st : List Nat) (kw : Nat × Nat) : List Nat :=
  match st with
  | [a, b, c, d, e, f, g, h] =>
    let ch := (e &&& f) ^^^ ((e ^^^ (2 ^ 64 - 1)) &&& g)
    let maj := (a &&& b) ^^^ (a &&& c) ^^^ (b &&& c)
    let t1 := (h + shaBigSigma1 e + ch + kw.1 + kw.2) % 2 ^ 64
    let t2 := (shaBigSigma0 a + maj) % 2 ^ 64
    [(t1 + t2) % 2 ^ 64, a, b, c, (d + t1) % 2 ^ 64, e, f, g]
  | _ => st

/-- SHA-512 compression of one 128-byte block into the hash state. -/
def shaBlock (h : List Nat) (block : List Nat) : List Nat :=
  let ws := shaExtend 64 ((chunks 8 block).map (ofDigitsBE 256))
  let st := (shaK.zip ws).foldl shaRound h
  (h.zip st).map (fun q => (q.1 + q.2) % 2 ^ 64)

/-- SHA-512 of a byte list, producing the 64-byte digest. -/
def sha512 (msg : List Nat) : List Nat :=
  (((chunks 128 (shaPad msg)).foldl shaBlock shaH0).map (natToBEBytes 8)).flatten

/-! ## Edwards25519 (`curve25519-dalek`, as used by `ed25519-dalek` 1.x)

Field elements are `Nat` values reduced mod `p = 2 ^ 255 - 19`; points are
affine pairs `(x, y)` (the identity is `(0, 1)`); the complete twisted
Edwards addition law computes the same group operation as the crate's
extended-coordinate formulas. -/

/-- The field prime `2 ^ 255 - 19`. -/
def edP : Nat := 2 ^ 255 - 19

/-- The Edwards curve constant `d = -121665 / 121666`. -/
def edD : Nat := 37095705934669439343138083508754565189542113879843219016388785533085940283555

/-- The group order `ℓ = 2 ^ 252 + 27742317777372353535851937790883648493`. -/
def edL : Nat := 2 ^ 252 + 27742317777372353535851937790883648493

/-- `sqrt(-1)` in the field (the crate's `SQRT_M1` constant). -/
def edSqrtM1 : Nat :=
  19681161376707505956807079304988542015446066515923890162744021073123829784752

/-- A point in affine coordinates. -/
def EdPoint := Nat × Nat

instance : DecidableEq EdPoint := fun a b => instDecidableEqProd a b

/-- Modular exponentiation by binary splitting (fuel-driven so the kernel can
evaluate it on 255-bit exponents). -/
def powModAux : Nat → Nat → Nat → Nat → Nat
  | 0, _, _, _ => 1
  | fuel + 1, b, e, m =>
    if e = 0 then 1 % m
    else
      let h := powModAux fuel (b * b % m) (e / 2) m
      if e % 2 = 1 then b * h % m else h

/-- `b ^ e % m` for moduli up to 256 bits. -/
def powMod (b e m : Nat) : Nat := powModAux 300 (b % m) e m

/-- Field inversion `x⁻¹ = x ^ (p - 2)`. -/
def edInv (x : Nat) : Nat := powMod x (edP - 2) edP

/-- The identity point. -/
def edId : EdPoint := (0, 1)

/-- Complete twisted Edwards addition (`a = -1`, constant `d`):
`x₃ = (x₁y₂ + y₁x₂) / (1 + d x₁x₂y₁y₂)`,
`y₃ = (y₁y₂ + x₁x₂) / (1 - d x₁x₂y₁y₂)`. -/
def edAdd (P Q : EdPoint) : EdPoint :=
  let x1 := P.1; let y1 := P.2; let x2 := Q.1; let y2 := Q.2
  let t := edD * (x1 * x2 % edP) % edP * (y1 * y2 % edP) % edP
  ((x1 * y2 + y1 * x2) % edP * edInv ((1 + t) % edP) % edP,
   (y1 * y2 + x1 * x2) % edP * edInv ((edP + 1 - t) % edP) % edP)

/-- Point negation `-(x, y) = (p - x, y)`. -/
def edNeg (P : EdPoint) : EdPoint := ((edP - P.1 % edP) % edP, P.2)

/-- Double-and-add scalar multiplication (fuel-driven). -/
def edSMulAux : Nat → Nat → EdPoint → EdPoint
  | 0, _, _ => edId
  | fuel + 1, n, P =>
    if n = 0 then edId
    else
      let Q := edSMulAux fuel (n / 2) (edAdd P P)
      if n % 2 = 1 then edAdd Q P else Q

/-- `n • P` for scalars up to 256 bits. -/
def edSMul (n : Nat) (P : EdPoint) : EdPoint := edSMulAux 300 n P

/-- The Ed25519 basepoint `B = (x, 4/5)` with `x` even. -/
def edB : EdPoint :=
  (15112221349535400772501151409588531511454012693041857206046113283949847762202,
   46316835694926478169428394003475163141307993866256225615783033603165251855960)

/-- Compressed Edwards form: 32 little-endian bytes of `y` with the top bit
carrying the parity ("sign") of `x` (`CompressedEdwardsY`). -/
def edCompress (P : EdPoint) : List Nat :=
  let yb := natToLEBytes 32 (P.2 % edP)
  yb.take 31 ++ [yb.getD 31 0 + 128 * (P.1 % edP % 2)]

/-- The crate's `FieldElement::sqrt_ratio_i`: decides whether `u / v` is a
square and returns the "nonnegative" (even) square root candidate. -/
def edSqrtRatio (u v : Nat) : Bool × Nat :=
  let v3 := v * v % edP * v % edP
  let v7 := v3 * v3 % edP * v % edP
  let r0 := u * v3 % edP * powMod (u * v7 % edP) ((edP - 5) / 8) edP % edP
  let check := v * r0 % edP * r0 % edP
  let correctSign := check = u % edP
  let flippedSign := check = (edP - u % edP) % edP
  let flippedSignI := check = (edP - u % edP) % edP * edSqrtM1 % edP
  let r1 := if flippedSign ∨ flippedSignI then r0 * edSqrtM1 % edP else r0
  let r2 := if r1 % 2 = 1 then (edP - r1) % edP else r1
  (decide (correctSign ∨ flippedSign), r2)

/-- The crate's `CompressedEdwardsY::decompress`: read `y` from the low 255
bits, solve `x² = (y² - 1) / (d y² + 1)`, fail when there is no root, and
pick the root whose parity matches the sign bit. -/
def edDecompress (bytes : List Nat) : Option EdPoint :=
  let y := leVal bytes % 2 ^ 255 % edP
  let yy := y * y % edP
  let u := (yy + edP - 1) % edP
  let v := (edD * yy % edP + 1) % edP
  let r := edSqrtRatio u v
  if r.1 then
    let x := if bytes.getD 31 0 / 128 % 2 = 1 then (edP - r.2 % edP) % edP else r.2
    some (x, y)
  else none

/-! ## The `ed25519-dalek` 1.x layer -/

/-- `ed25519_dalek::PublicKey`: the compressed bytes together with the
decompressed point (`PublicKey(CompressedEdwardsY, EdwardsPoint)`). -/
structure EdPublicKey where
  bytes : List Nat
  point : EdPoint
deriving DecidableEq

/-- `PublicKey::from_bytes`: exactly 32 bytes that decompress to a curve
point; decompression failure is an error. -/
def EdPublicKey.fromBytes (b : List Nat) : Option EdPublicKey :=
  if b.length = 32 then (edDecompress b).map (fun P => ⟨b, P⟩) else none

/-- `ed25519_dalek::Keypair`: the 32-byte secret seed and the public key. -/
structure EdKeypair where
  secret : List Nat
  public : EdPublicKey
deriving DecidableEq

/-- `Keypair::from_bytes`: requires exactly `KEYPAIR_LENGTH = 64` bytes
(secret seed followed by compressed public key); the error strings model the
`Display` of the crate's `SignatureError` (wrapper wording abbreviated, the
theorems below never depend on it). -/
def EdKeypair.fromBytes (b : List Nat) : Except String EdKeypair :=
  if b.length = 64 then
    match EdPublicKey.fromBytes (b.drop 32) with
    | some pk => .ok ⟨b.take 32, pk⟩
    | none => .error "Cannot decompress Edwards point"
  else .error "Keypair must be 64 bytes in length"

/-- Clear the low three bits of the first byte ("clamping", first half). -/
def clampFirst : List Nat → List Nat
  | [] => []
  | b0 :: rest => (b0 &&& 248) :: rest

/-- Clear the top bit and set the second-highest bit of the last byte
("clamping", second half). -/
def clampLast : List Nat → List Nat
  | [] => []
  | [b] => [(b &&& 127) ||| 64]
  | b :: rest => b :: clampLast rest

/-- The clamped scalar of an expanded secret key: first 32 bytes of
`SHA-512(seed)` with bits 0-2 cleared, bit 255 cleared, bit 254 set. -/
def expandedScalar (seed : List Nat) : Nat :=
  leVal (clampFirst (clampLast ((sha512 seed).take 32)))

/-- The point `a • B` derived from a seed (`PublicKey::from(&SecretKey)`). -/
def derivePublicPoint (seed : List Nat) : EdPoint := edSMul (expandedScalar seed) edB

/-- The compressed public key derived from a seed. -/
def derivePublic (seed : List Nat) : List Nat := edCompress (derivePublicPoint seed)

/-- `Keypair::generate`: `OsRng` fills a fresh 32-byte seed, modelled here as
the explicit `seed` argument; the public key is derived from the seed. -/
def EdKeypair.generate (seed : List Nat) : EdKeypair :=
  ⟨seed, ⟨derivePublic seed, derivePublicPoint seed⟩⟩

/-- `Keypair::sign` (RFC 8032 deterministic Ed25519):
`r = H(prefix ‖ M) mod ℓ`, `R = r • B`, `k = H(R ‖ A ‖ M) mod ℓ`,
`s = k·a + r mod ℓ`, signature `R ‖ s`. -/
def edSign (kp : EdKeypair) (msg : List Nat) : List Nat :=
  let h := sha512 kp.secret
  let a := leVal (clampFirst (clampLast (h.take 32)))
  let nonce := h.drop 32
  let r := leVal (sha512 (nonce ++ msg)) % edL
  let bigR := edCompress (edSMul r edB)
  let k := leVal (sha512 (bigR ++ kp.public.bytes ++ msg)) % edL
  let s := (k * a + r) % edL
  bigR ++ natToLEBytes 32 s

/-- `ed25519::Signature::try_from(&[u8])`: exactly 64 bytes, kept verbatim
(semantic checks happen at verification time in dalek 1.x). -/
def edSigFromBytes (b : List Nat) : Option (List Nat) :=
  if b.length = 64 then some b else none

/-- dalek 1.x `check_scalar` on the `s` half of a signature: accept verbatim
when the top four bits are clear, otherwise require a canonical value
`< ℓ`. -/
def checkScalar (sb : List Nat) : Option Nat :=
  if (sb.getLast?.getD 0) &&& 240 = 0 then some (leVal sb)
  else if leVal sb < edL then some (leVal sb) else none

/-- `PublicKey::verify`: split the signature into `R ‖ s`, reject a malformed
scalar (the handler folds that rejection into `valid = false` via
`.is_ok()`), compute `k = H(R ‖ A ‖ M) mod ℓ` and accept iff
`compress(k • (-A) + s • B) = R`. -/
def dalekVerify (msg sigBytes : List Nat) (pk : EdPublicKey) : Bool :=
  let bigR := sigBytes.take 32
  let sb := sigBytes.drop 32
  match checkScalar sb with
  | none => false
  | some s =>
    let k := leVal (sha512 (bigR ++ pk.bytes ++ msg)) % edL
    decide (edCompress (edAdd (edSMul k (edNeg pk.point)) (edSMul s edB)) = bigR)

/-! ## The `solana_program` / `spl_token` layer -/

/-- `Pubkey::from_str`: at most `MAX_BASE58_LEN = 44` input bytes, valid
base-58, decoding to exactly 32 bytes. -/
def parsePubkey (s : String) : Option (List Nat) :=
  if s.utf8ByteSize > 44 then none
  else
    match bs58Decode s with
    | none => none
    | some b => if b.length = 32 then some b else none

/-- `Pubkey::to_string` (base-58 of the 32 bytes). -/
def pubkeyToString (pk : List Nat) : String := bs58Encode pk

/-- `solana_program::instruction::AccountMeta`. -/
structure AccountMeta where
  pubkey : List Nat
  isSigner : Bool
  isWritable : Bool
deriving DecidableEq

/-- `solana_program::instruction::Instruction`. -/
structure Instruction where
  programId : List Nat
  accounts : List AccountMeta
  data : List Nat
deriving DecidableEq

/-- The system program id (32 zero bytes,
`"11111111111111111111111111111111"`). -/
def systemProgramId : List Nat := List.replicate 32 0

/-- The SPL token program id
(`"TokenkegQfeZyiNwAJbNbGKPFXCWuBvf9Ss623VQ5DA"`). -/
def splTokenId : List Nat :=
  (bs58Decode "TokenkegQfeZyiNwAJbNbGKPFXCWuBvf9Ss623VQ5DA").getD []

/-- The rent sysvar id
(`"SysvarRent111111111111111111111111111111111"`). -/
def rentSysvarId : List Nat :=
  (bs58Decode "SysvarRent111111111111111111111111111111111").getD []

/-- `system_instruction::transfer`: accounts `[from (signer, writable),
to (writable)]`, data = bincode of `SystemInstruction::Transfer { lamports }`
(little-endian `u32` variant tag 2 followed by the little-endian `u64`
lamports). -/
def systemTransfer (fromAddr toAddr : List Nat) (lamports : Nat) : Instruction :=
  ⟨systemProgramId, [⟨fromAddr, true, true⟩, ⟨toAddr, false, true⟩], u32LE 2 ++ u64LE lamports⟩

/-- `spl_token::instruction`'s `check_program_account`. -/
def checkProgramAccount (programId : List Nat) : Bool := programId = splTokenId

/-- `spl_token::instruction::mint_to`: data tag 7 followed by the
little-endian amount; accounts `[mint (writable), destination (writable),
authority (signer when no multisig signers are supplied)]`. -/
def splMintTo (programId mint account owner : List Nat) (signers : List (List Nat))
    (amount : Nat) : Except String Instruction :=
  if checkProgramAccount programId then
    .ok ⟨programId,
      [⟨mint, false, true⟩, ⟨account, false, true⟩, ⟨owner, signers.isEmpty, false⟩] ++
        signers.map (⟨·, true, false⟩),
      7 :: u64LE amount⟩
  else .error "IncorrectProgramId"

/-- `spl_token::instruction::transfer`: data tag 3 followed by the
little-endian amount; accounts `[source (writable), destination (writable),
authority (signer when no multisig signers are supplied)]`. -/
def splTransfer (programId source destination owner : List Nat) (signers : List (List Nat))
    (amount : Nat) : Except String Instruction :=
  if checkProgramAccount programId then
    .ok ⟨programId,
      [⟨source, false, true⟩, ⟨destination, false, true⟩, ⟨owner, signers.isEmpty, false⟩] ++
        signers.map (⟨·, true, false⟩),
      3 :: u64LE amount⟩
  else .error "IncorrectProgramId"

/-- `COption<Pubkey>` packing used by `initialize_mint`. -/
def packPubkeyOption : Option (List Nat) → List Nat
  | some k => 1 :: k
  | none => [0]

/-- `spl_token::instruction::initialize_mint`: data tag 0, the decimals byte,
the mint authority and the packed freeze authority; accounts
`[mint (writable), rent sysvar (readonly)]`. -/
def splInitMint (programId mint mintAuthority : List Nat)
    (freezeAuthority : Option (List Nat)) (decimals : Nat) : Except String Instruction :=
  if checkProgramAccount programId then
    .ok ⟨programId, [⟨mint, false, true⟩, ⟨rentSysvarId, false, false⟩],
      0 :: decimals :: mintAuthority ++ packPubkeyOption freezeAuthority⟩
  else .error "IncorrectProgramId"

/-! ## The HTTP handlers (`src/routes/*.rs`)

Each handler returns a status code with a typed body; the JSON envelope
`{"success": ..., "data"|"error": ...}` is modelled by the `success` flag and
the `RespBody` constructors. -/

/-- The UTF-8 bytes of a string (`str::as_bytes`). -/
def strBytes (s : String) : List Nat := s.toUTF8.toList.map UInt8.toNat

/-- The body of a handler response. -/
inductive RespBody where
  /-- An error envelope `{"success": false, "error": msg}`. -/
  | err (msg : String) : RespBody
  /-- `SignResponse { signature, public_key, message }`. -/
  | signOk (signature publicKey message : String) : RespBody
  /-- `VerifyResponse { valid, message, pubkey }`. -/
  | verifyOk (valid : Bool) (message pubkey : String) : RespBody
  /-- `KeypairResponse { pubkey, secret }`. -/
  | keypairOk (pubkey secret : String) : RespBody
  /-- `TransferResponse { program_id, accounts, instruction_data }` (plain
  address list, `send_sol`). -/
  | solOk (programId : String) (accounts : List String) (instructionData : String) : RespBody
  /-- `TokenResponse { program_id, accounts, instruction_data }` with
  `(pubkey, is_signer, is_writable)` account entries. -/
  | tokenOk (programId : String) (accounts : List (String × Bool × Bool))
      (instructionData : String) : RespBody
deriving DecidableEq

/-- A handler response: HTTP status, envelope `success` flag, body. -/
structure Resp where
  status : Nat
  success : Bool
  body : RespBody
deriving DecidableEq

/-- A 400 error envelope. -/
def errResp (msg : String) : Resp := ⟨400, false, .err msg⟩

/-- A 500 error envelope. -/
def errResp500 (msg : String) : Resp := ⟨500, false, .err msg⟩

/-- A 200 success envelope. -/
def okResp (b : RespBody) : Resp := ⟨200, true, b⟩

/-- `sign_message` (`src/routes/message.rs:23-86`): reject empty fields,
base-58-decode the secret, require exactly 32 bytes, build the keypair with
`Keypair::from_bytes`, sign, and answer with the base-64 signature and the
base-58 public key. -/
def signMessage (message secret : String) : Resp :=
  if message = "" ∨ secret = "" then errResp "Missing required fields"
  else
    match bs58Decode secret with
    | none => errResp "Invalid base58 encoding for secret key"
    | some secretBytes =>
      if secretBytes.length ≠ 32 then errResp "Secret key must be exactly 32 bytes"
      else
        match EdKeypair.fromBytes secretBytes with
        | .error e => errResp ("Invalid secret key: " ++ e)
        | .ok kp =>
          okResp (.signOk (base64Encode (edSign kp (strBytes message)))
            (bs58Encode kp.public.bytes) message)

/-- `verify_message` (`src/routes/message.rs:102-203`): reject empty fields,
base-58-decode the public key (32 bytes, decompressible), base-64-decode the
signature (64 bytes), and answer `valid = pubkey.verify(...).is_ok()`. -/
def verifyMessage (message sigText pubkey : String) : Resp :=
  if message = "" ∨ sigText = "" ∨ pubkey = "" then errResp "Missing required fields"
  else
    match bs58Decode pubkey with
    | none => errResp "Invalid base58 encoding for public key"
    | some pubBytes =>
      if pubBytes.length ≠ 32 then errResp "Public key must be exactly 32 bytes"
      else
        match EdPublicKey.fromBytes pubBytes with
        | none => errResp "Invalid public key: Cannot decompress Edwards point"
        | some pk =>
          match base64Decode sigText with
          | none => errResp "Invalid base64 encoding for signature"
          | some sigBytes =>
            if sigBytes.length ≠ 64 then errResp "Signature must be exactly 64 bytes"
            else
              match edSigFromBytes sigBytes with
              | none => errResp "Invalid signature: signature error"
              | some sigb =>
                okResp (.verifyOk (dalekVerify (strBytes message) sigb pk) message pubkey)

/-- `generate_keypair_internal` (`src/routes/keypair.rs:59-72`): draw a fresh
32-byte seed from `OsRng` (the explicit `seed` argument here), derive the
keypair, and answer with the base-58 public key and the base-58 64-byte
`Keypair::to_bytes` form (secret seed followed by public key). -/
def generateKeypairInternal (seed : List Nat) : Resp :=
  let kp := EdKeypair.generate seed
  okResp (.keypairOk (bs58Encode kp.public.bytes) (bs58Encode (kp.secret ++ kp.public.bytes)))

/-- `create_token` (`src/routes/token.rs:28-92`): parse `mint` then
`mintAuthority` (each failure is its own 400), call
`token_instruction::initialize_mint` (500 on failure), and serialize the
instruction. -/
def createToken (mintAuthority mint : String) (decimals : Nat) : Resp :=
  match parsePubkey mint with
  | none => errResp "Invalid `mint` address"
  | some mintPk =>
    match parsePubkey mintAuthority with
    | none => errResp "Invalid `mintAuthority` address"
    | some authority =>
      match splInitMint splTokenId mintPk authority none decimals with
      | .error e => errResp500 ("Failed to create initialize mint instruction: " ++ e)
      | .ok ix =>
        okResp (.tokenOk (pubkeyToString ix.programId)
          (ix.accounts.map (fun a => (pubkeyToString a.pubkey, a.isSigner, a.isWritable)))
          (base64Encode ix.data))

/-- `mint_token` (`src/routes/token.rs:102-181`): parse `mint`,
`destination`, `authority` (each failure its own 400; there is no amount
validation), call `token_instruction::mint_to`, and serialize the
instruction. -/
def mintToken (mint destination authority : String) (amount : Nat) : Resp :=
  match parsePubkey mint with
  | none => errResp "Invalid `mint` address"
  | some mintPk =>
    match parsePubkey destination with
    | none => errResp "Invalid `destination` address"
    | some dest =>
      match parsePubkey authority with
      | none => errResp "Invalid `authority` address"
      | some auth =>
        match splMintTo splTokenId mintPk dest auth [] amount with
        | .error e => errResp500 ("Failed to create mint_to instruction: " ++ e)
        | .ok ix =>
          okResp (.tokenOk (pubkeyToString ix.programId)
            (ix.accounts.map (fun a => (pubkeyToString a.pubkey, a.isSigner, a.isWritable)))
            (base64Encode ix.data))

/-- `send_sol` (`src/routes/transfer.rs:35-99`): reject empty fields, reject
`lamports = 0`, parse `from` and `to`, build the system transfer instruction,
and serialize it with a plain address list. -/
def sendSol (fromAddr toAddr : String) (lamports : Nat) : Resp :=
  if fromAddr = "" ∨ toAddr = "" then
    errResp "Missing required fields: from and to addresses are required"
  else if lamports = 0 then errResp "Amount must be greater than 0"
  else
    match parsePubkey fromAddr with
    | none => errResp "Invalid `from` address"
    | some fromPk =>
      match parsePubkey toAddr with
      | none => errResp "Invalid `to` address"
      | some toPk =>
        let ix := systemTransfer fromPk toPk lamports
        okResp (.solOk (pubkeyToString ix.programId)
          (ix.accounts.map (fun a => pubkeyToString a.pubkey)) (base64Encode ix.data))

/-- `send_token` (`src/routes/transfer.rs:101-202`): reject empty fields,
reject `amount = 0`, parse `destination`, `mint`, `owner`, call
`token_instruction::transfer` — the handler passes `mint` as the source and
`destination` as the destination account — and serialize the instruction. -/
def sendToken (destination mint owner : String) (amount : Nat) : Resp :=
  if destination = "" ∨ mint = "" ∨ owner = "" then
    errResp "Missing required fields: destination, mint, and owner addresses are required"
  else if amount = 0 then errResp "Amount must be greater than 0"
  else
    match parsePubkey destination with
    | none => errResp "Invalid `destination` address"
    | some dest =>
      match parsePubkey mint with
      | none => errResp "Invalid `mint` address"
      | some mintPk =>
        match parsePubkey owner with
        | none => errResp "Invalid `owner` address"
        | some ownerPk =>
          match splTransfer splTokenId mintPk dest ownerPk [] amount with
          | .error e => errResp500 ("Failed to create token transfer instruction: " ++ e)
          | .ok ix =>
            okResp (.tokenOk (pubkeyToString ix.programId)
              (ix.accounts.map (fun a => (pubkeyToString a.pubkey, a.isSigner, a.isWritable)))
              (base64Encode ix.data))

/-! ## Arithmetic facts about the digit conversions -/

theorem digitsLEAux_irrel (b : Nat) (hb : 2 ≤ b) :
    ∀ f1 n, n ≤ f1 → ∀ f2, n ≤ f2 → digitsLEAux b f1 n = digitsLEAux b f2 n := by
  intro f1
  induction f1 with
  | zero =>
    intro n hn f2 _
    interval_cases n
    cases f2 <;> simp [digitsLEAux]
  | succ f ih =>
    intro n hn f2 hn2
    by_cases h0 : n = 0
    · subst h0; cases f2 <;> simp [digitsLEAux]
    · cases f2 with
      | zero => omega
      | succ g =>
        simp only [digitsLEAux, h0, if_false]
        have hdiv : n / b < n := Nat.div_lt_self (by omega) (by omega)
        rw [ih (n / b) (by omega) g (by omega)]

theorem digitsLE_unfold (b n : Nat) (hb : 2 ≤ b) :
    digitsLE b n = if n = 0 then [] else n % b :: digitsLE b (n / b) := by
  by_cases h0 : n = 0
  · subst h0; simp [digitsLE, digitsLEAux]
  · cases n with
    | zero => omega
    | succ m =>
      rw [if_neg h0]
      show digitsLEAux b (m + 1) (m + 1) = _
      simp only [digitsLEAux, h0, if_false]
      have hdiv : (m + 1) / b ≤ m := by
        have h := Nat.div_lt_self (show 0 < m + 1 by omega) (show 1 < b by omega)
        omega
      rw [digitsLEAux_irrel b hb m ((m + 1) / b) hdiv ((m + 1) / b) (le_refl _)]
      rfl

theorem ofDigitsLE_digitsLE (b : Nat) (hb : 2 ≤ b) (n : Nat) :
    ofDigitsLE b (digitsLE b n) = n := by
  induction n using Nat.strong_induction_on with
  | _ n ih =>
    rw [digitsLE_unfold b n hb]
    by_cases h0 : n = 0
    · simp [h0, ofDigitsLE]
    · rw [if_neg h0]
      have hdiv : n / b < n := Nat.div_lt_self (by omega) (by omega)
      show n % b + b * ofDigitsLE b (digitsLE b (n / b)) = n
      rw [ih (n / b) hdiv]
      exact Nat.mod_add_div n b

theorem digitsLE_lt (b : Nat) (hb : 2 ≤ b) (n : Nat) :
    ∀ d ∈ digitsLE b n, d < b := by
  induction n using Nat.strong_induction_on with
  | _ n ih =>
    rw [digitsLE_unfold b n hb]
    by_cases h0 : n = 0
    · simp [h0]
    · rw [if_neg h0]
      intro d hd
      rcases List.mem_cons.mp hd with h | h
      · subst h; exact Nat.mod_lt n (by omega)
      · exact ih (n / b) (Nat.div_lt_self (by omega) (by omega)) d h

theorem digitsLE_getLast_ne_zero (b : Nat) (hb : 2 ≤ b) (n : Nat) :
    (digitsLE b n).getLast? ≠ some 0 := by
  induction n using Nat.strong_induction_on with
  | _ n ih =>
    rw [digitsLE_unfold b n hb]
    by_cases h0 : n = 0
    · simp [h0]
    · rw [if_neg h0]
      by_cases hq : n / b = 0
      · have hnb : n < b := by
          rcases Nat.lt_or_ge n b with h | h
          · exact h
          · have h1 : 1 ≤ n / b := (Nat.le_div_iff_mul_le (by omega : 0 < b)).mpr (by omega)
            omega
        rw [digitsLE_unfold b (n / b) hb, if_pos hq]
        simp only [List.getLast?_singleton]
        rw [Nat.mod_eq_of_lt hnb]
        simp [h0]
      · have hne : digitsLE b (n / b) ≠ [] := by
          rw [digitsLE_unfold b (n / b) hb, if_neg hq]
          simp
        rcases List.exists_cons_of_ne_nil hne with ⟨y, t, hyt⟩
        rw [hyt, List.getLast?_cons_cons, ← hyt]
        exact ih (n / b) (Nat.div_lt_self (by omega) (by omega))

theorem ofDigitsLE_eq_zero (b : Nat) (hb : 0 < b) (l : List Nat)
    (h : ofDigitsLE b l = 0) : ∀ x ∈ l, x = 0 := by
  induction l with
  | nil => simp
  | cons y t ih =>
    have hy : y + b * ofDigitsLE b t = 0 := h
    intro x hx
    rcases List.mem_cons.mp hx with h' | h'
    · omega
    · exact ih (by nlinarith) x h'

theorem digitsLE_ofDigitsLE (l : List Nat) (hlt : ∀ x ∈ l, x < 256)
    (hlast : l.getLast? ≠ some 0) : digitsLE 256 (ofDigitsLE 256 l) = l := by
  induction l with
  | nil => simp [ofDigitsLE, digitsLE, digitsLEAux]
  | cons x t ih =>
    have hx : x < 256 := hlt x (List.mem_cons_self x t)
    show digitsLE 256 (x + 256 * ofDigitsLE 256 t) = x :: t
    cases t with
    | nil =>
      have hx0 : x ≠ 0 := by
        simp only [List.getLast?_singleton] at hlast
        intro h; exact hlast (by rw [h])
      rw [digitsLE_unfold 256 _ (by omega)]
      simp only [ofDigitsLE, List.foldr_nil, Nat.mul_zero, Nat.add_zero]
      rw [if_neg hx0, Nat.mod_eq_of_lt hx, Nat.div_eq_of_lt hx]
      simp [digitsLE, digitsLEAux]
    | cons y t' =>
      have hlast' : (y :: t').getLast? ≠ some 0 := by
        rwa [List.getLast?_cons_cons] at hlast
      have hw : ofDigitsLE 256 (y :: t') ≠ 0 := by
        intro h
        have hall := ofDigitsLE_eq_zero 256 (by omega) (y :: t') h
        have : (y :: t').getLast? = some 0 := by
          have hmem := List.getLast_mem (l := y :: t') (by simp)
          rw [List.getLast?_eq_getLast (y :: t') (by simp)]
          rw [hall _ hmem]
        exact hlast' this
      rw [digitsLE_unfold 256 _ (by omega), if_neg (by positivity)]
      rw [Nat.add_mul_mod_self_left, Nat.mod_eq_of_lt hx]
      rw [Nat.add_mul_div_left x _ (by omega : 0 < 256), Nat.div_eq_of_lt hx, Nat.zero_add]
      rw [ih (fun z hz => hlt z (List.mem_cons_of_mem x hz)) hlast']

theorem ofDigitsBE_eq_reverse (b : Nat) (l : List Nat) :
    ofDigitsBE b l = ofDigitsLE b l.reverse := by
  induction l using List.reverseRecOn with
  | nil => rfl
  | append_singleton xs x ih =>
    show List.foldl (fun acc d => acc * b + d) 0 (xs ++ [x]) = _
    rw [List.foldl_append, List.reverse_append]
    show ofDigitsBE b xs * b + x = ofDigitsLE b (x :: xs.reverse)
    show ofDigitsBE b xs * b + x = x + b * ofDigitsLE b xs.reverse
    rw [ih]; ring

theorem ofDigitsBE_replicate_zero (b z : Nat) (r : List Nat) :
    ofDigitsBE b (List.replicate z 0 ++ r) = ofDigitsBE b r := by
  induction z with
  | zero => simp
  | succ k ih =>
    rw [List.replicate_succ, List.cons_append]
    show List.foldl (fun acc d => acc * b + d) (0 * b + 0) (List.replicate k 0 ++ r) =
      ofDigitsBE b r
    rw [Nat.zero_mul, Nat.add_zero]
    exact ih

theorem countLeadZeros_replicate_append (z : Nat) (r : List Nat) :
    countLeadZeros (List.replicate z 0 ++ r) = z + countLeadZeros r := by
  induction z with
  | zero => simp
  | succ k ih => rw [List.replicate_succ, List.cons_append]; simp [countLeadZeros, ih]; omega

theorem countLeadZeros_of_head (r : List Nat) (h : r.head? ≠ some 0) :
    countLeadZeros r = 0 := by
  cases r with
  | nil => rfl
  | cons x t =>
    simp only [List.head?_cons] at h
    have : x ≠ 0 := by intro hx; exact h (by rw [hx])
    simp [countLeadZeros, this]

theorem dropLeadZeros_spec (l : List Nat) :
    l = List.replicate (countLeadZeros l) 0 ++ dropLeadZeros l := by
  induction l with
  | nil => rfl
  | cons x t ih =>
    by_cases hx : x = 0
    · subst hx
      have h1 : countLeadZeros (0 :: t) = countLeadZeros t + 1 := by simp [countLeadZeros]
      have h2 : dropLeadZeros (0 :: t) = dropLeadZeros t := by simp [dropLeadZeros]
      rw [h1, h2, List.replicate_succ, List.cons_append, ← ih]
    · simp [countLeadZeros, dropLeadZeros, hx]

theorem dropLeadZeros_head (l : List Nat) : (dropLeadZeros l).head? ≠ some 0 := by
  induction l with
  | nil => simp [dropLeadZeros]
  | cons x t ih =>
    by_cases hx : x = 0
    · subst hx; simpa [dropLeadZeros] using ih
    · simp [dropLeadZeros, hx]

/-! ## Base-58 round-trip -/

theorem b58Vals_append (l1 l2 : List Char) (v1 v2 : List Nat)
    (h1 : b58Vals l1 = some v1) (h2 : b58Vals l2 = some v2) :
    b58Vals (l1 ++ l2) = some (v1 ++ v2) := by
  induction l1 generalizing v1 with
  | nil =>
    simp only [b58Vals] at h1
    cases h1
    simpa using h2
  | cons c cs ih =>
    simp only [b58Vals] at h1
    cases hc : charIndex b58Chars c with
    | none => rw [hc] at h1; cases h1
    | some v =>
      rw [hc] at h1
      cases hcs : b58Vals cs with
      | none => rw [hcs] at h1; cases h1
      | some vs =>
        rw [hcs] at h1
        cases h1
        rw [List.cons_append]
        simp only [b58Vals, hc, ih vs hcs, List.cons_append]

theorem b58Vals_replicate_one (z : Nat) :
    b58Vals (List.replicate z '1') = some (List.replicate z 0) := by
  induction z with
  | zero => rfl
  | succ k ih =>
    rw [List.replicate_succ, List.replicate_succ]
    show b58Vals ('1' :: List.replicate k '1') = _
    simp only [b58Vals, ih]
    rfl

theorem b58_char_val (d : Nat) (hd : d < 58) :
    charIndex b58Chars (b58Chars.getD d '1') = some d := by
  revert hd
  revert d
  decide

theorem b58Vals_map (ds : List Nat) (h : ∀ d ∈ ds, d < 58) :
    b58Vals (ds.map (fun d => b58Chars.getD d '1')) = some ds := by
  induction ds with
  | nil => rfl
  | cons d rest ih =>
    rw [List.map_cons]
    show b58Vals (b58Chars.getD d '1' :: rest.map (fun d => b58Chars.getD d '1')) = _
    simp only [b58Vals, b58_char_val d (h d (List.mem_cons_self d rest)),
      ih (fun x hx => h x (List.mem_cons_of_mem d hx))]

theorem bs58Decode_eq (s : String) (ds : List Nat) (h : b58Vals s.data = some ds) :
    bs58Decode s =
      some (List.replicate (countLeadZeros ds) 0 ++ (digitsLE 256 (ofDigitsBE 58 ds)).reverse) := by
  rw [bs58Decode, h]

theorem bs58_roundtrip (l : List Nat) (hlt : ∀ x ∈ l, x < 256) :
    bs58Decode (bs58Encode l) = some l := by
  -- decompose the input into leading zeros and a zero-free head remainder
  have hdecomp := dropLeadZeros_spec l
  set z := countLeadZeros l with hz
  set r := dropLeadZeros l with hr
  have hhead : r.head? ≠ some 0 := dropLeadZeros_head l
  set n := ofDigitsLE 256 r.reverse with hn
  -- the big-endian value ignores the leading zeros
  have hval : ofDigitsBE 256 l = n := by
    rw [hdecomp, ofDigitsBE_replicate_zero, ofDigitsBE_eq_reverse]
  -- the base-58 digits of n are all < 58
  have hdigits58 : ∀ d ∈ (digitsLE 58 n).reverse, d < 58 := by
    intro d hd
    exact digitsLE_lt 58 (by omega) n d (List.mem_reverse.mp hd)
  -- the digit values recovered from the encoded characters
  have hchars : b58Vals (bs58Encode l).data =
      some (List.replicate z 0 ++ (digitsLE 58 n).reverse) := by
    rw [bs58Encode]
    show b58Vals (List.replicate z '1' ++
      (digitsLE 58 (ofDigitsBE 256 l)).reverse.map (fun d => b58Chars.getD d '1')) = _
    rw [hval]
    exact b58Vals_append _ _ _ _ (b58Vals_replicate_one z) (b58Vals_map _ hdigits58)
  -- leading zero count of the digit string
  have hcount : countLeadZeros (List.replicate z 0 ++ (digitsLE 58 n).reverse) = z := by
    rw [countLeadZeros_replicate_append]
    have h0 : countLeadZeros (digitsLE 58 n).reverse = 0 := by
      apply countLeadZeros_of_head
      rw [List.head?_reverse]
      exact digitsLE_getLast_ne_zero 58 (by omega) n
    omega
  -- the recovered value
  have hback : ofDigitsBE 58 (List.replicate z 0 ++ (digitsLE 58 n).reverse) = n := by
    rw [ofDigitsBE_replicate_zero, ofDigitsBE_eq_reverse, List.reverse_reverse,
      ofDigitsLE_digitsLE 58 (by omega)]
  -- the canonical byte string of n is exactly r
  have hcanon : digitsLE 256 n = r.reverse := by
    rw [hn]
    apply digitsLE_ofDigitsLE
    · intro x hx
      exact hlt x (by rw [hdecomp]; exact List.mem_append_right _ (List.mem_reverse.mp hx))
    · rw [List.getLast?_reverse]
      exact hhead
  rw [bs58Decode_eq _ _ hchars, hcount, hback, hcanon, List.reverse_reverse, ← hdecomp]

/-! ## Byte bounds for the fixed-width encodings -/

theorem natToLEBytes_length (w : Nat) : ∀ n, (natToLEBytes w n).length = w := by
  induction w with
  | zero => intro n; rfl
  | succ k ih => intro n; simp [natToLEBytes, ih]

theorem natToLEBytes_mem_lt (w : Nat) : ∀ n, ∀ x ∈ natToLEBytes w n, x < 256 := by
  induction w with
  | zero => intro n x hx; cases hx
  | succ k ih =>
    intro n x hx
    rcases List.mem_cons.mp hx with h | h
    · subst h; exact Nat.mod_lt _ (by omega)
    · exact ih (n / 256) x h

theorem natToLEBytes_getD (w : Nat) :
    ∀ n i, i < w → (natToLEBytes w n).getD i 0 = n / 256 ^ i % 256 := by
  induction w with
  | zero => intro n i h; omega
  | succ k ih =>
    intro n i h
    cases i with
    | zero => simp [natToLEBytes]
    | succ j =>
      show (natToLEBytes k (n / 256)).getD j 0 = _
      rw [ih (n / 256) j (by omega), Nat.div_div_eq_div_mul, pow_succ, mul_comm (256 ^ j) 256]

theorem edP_lt : edP < 2 ^ 255 := by
  rw [edP]
  omega

theorem edCompress_length (P : EdPoint) : (edCompress P).length = 32 := by
  rw [edCompress]
  rw [List.length_append, List.length_take, natToLEBytes_length]
  rfl

theorem edCompress_mem_lt (P : EdPoint) : ∀ x ∈ edCompress P, x < 256 := by
  intro x hx
  rw [edCompress] at hx
  rcases List.mem_append.mp hx with h | h
  · exact natToLEBytes_mem_lt 32 _ x (List.take_subset 31 _ h)
  · have hx' : x = (natToLEBytes 32 (P.2 % edP)).getD 31 0 + 128 * (P.1 % edP % 2) := by
      simpa using h
    have hb : (natToLEBytes 32 (P.2 % edP)).getD 31 0 = P.2 % edP / 256 ^ 31 % 256 :=
      natToLEBytes_getD 32 _ 31 (by omega)
    have hlt : P.2 % edP / 256 ^ 31 < 128 := by
      have h1 : P.2 % edP < edP := Nat.mod_lt _ (by rw [edP]; positivity)
      have h2 : P.2 % edP < 128 * 256 ^ 31 := by
        calc P.2 % edP < edP := h1
        _ < 2 ^ 255 := edP_lt
        _ = 128 * 256 ^ 31 := by norm_num
      omega
    have hm2 : P.1 % edP % 2 < 2 := Nat.mod_lt _ (by omega)
    have : P.2 % edP / 256 ^ 31 % 256 ≤ P.2 % edP / 256 ^ 31 := Nat.mod_le _ _
    omega

/-! ## Claim C3: zero amounts are rejected by the transfer handlers -/

/-- **C3**: for every `send_sol` request with `lamports = 0` and every
`send_token` request with `amount = 0` (fields non-empty), the handler
answers HTTP 400 with the error `"Amount must be greater than 0"` and builds
no instruction. -/
theorem c3_zero_amount_rejected (fromAddr toAddr destination mint owner : String)
    (h1 : fromAddr ≠ "") (h2 : toAddr ≠ "") (h3 : destination ≠ "") (h4 : mint ≠ "")
    (h5 : owner ≠ "") :
    sendSol fromAddr toAddr 0 = errResp "Amount must be greater than 0" ∧
    sendToken destination mint owner 0 = errResp "Amount must be greater than 0" := by
  constructor
  · rw [sendSol, if_neg (by simp [h1, h2]), if_pos rfl]
  · rw [sendToken, if_neg (by simp [h3, h4, h5]), if_pos rfl]

/-- Witness for C3 at concrete non-empty fields. -/
theorem c3_zero_amount_rejected_witness :
    ("a" : String) ≠ "" ∧ ("b" : String) ≠ "" ∧ ("c" : String) ≠ "" ∧
    sendSol "a" "b" 0 = errResp "Amount must be greater than 0" ∧
    sendToken "a" "b" "c" 0 = errResp "Amount must be greater than 0" := by
  have h := c3_zero_amount_rejected "a" "b" "a" "b" "c"
    (by decide) (by decide) (by decide) (by decide) (by decide)
  exact ⟨by decide, by decide, by decide, h.1, h.2⟩

/-! ## Claim C9: the zero-amount check runs before address parsing -/

/-- **C9**: in `send_sol` and `send_token` the zero-amount check precedes all
address parsing: with non-empty but malformed (unparseable) address fields
and a zero amount, the answer is still the `"Amount must be greater than 0"`
error. -/
theorem c9_zero_amount_before_parse (fromAddr toAddr destination mint owner : String)
    (h1 : fromAddr ≠ "") (h2 : toAddr ≠ "") (h3 : destination ≠ "") (h4 : mint ≠ "")
    (h5 : owner ≠ "")
    (hp1 : parsePubkey fromAddr = none) (hp2 : parsePubkey toAddr = none)
    (hp3 : parsePubkey destination = none) (hp4 : parsePubkey mint = none)
    (hp5 : parsePubkey owner = none) :
    sendSol fromAddr toAddr 0 = errResp "Amount must be greater than 0" ∧
    sendToken destination mint owner 0 = errResp "Amount must be greater than 0" := by
  constructor
  · rw [sendSol, if_neg (by simp [h1, h2]), if_pos rfl]
  · rw [sendToken, if_neg (by simp [h3, h4, h5]), if_pos rfl]

/-- Witness for C9 at concrete malformed addresses (characters outside the
base-58 alphabet). -/
theorem c9_zero_amount_before_parse_witness :
    parsePubkey "!!bad!!" = none ∧ parsePubkey "%also-bad%" = none ∧
    sendSol "!!bad!!" "%also-bad%" 0 = errResp "Amount must be greater than 0" ∧
    sendToken "!!bad!!" "%also-bad%" "!!bad!!" 0 = errResp "Amount must be greater than 0" := by
  have h := c9_zero_amount_before_parse "!!bad!!" "%also-bad%" "!!bad!!" "%also-bad%" "!!bad!!"
    (by decide) (by decide) (by decide) (by decide) (by decide)
    (by decide) (by decide) (by decide) (by decide) (by decide)
  exact ⟨by decide, by decide, h.1, h.2⟩

/-! ## Claim C4: `create_token` rejects a malformed mint before construction -/

/-- **C4**: for every `create_token` request whose `mint` string is not valid
base-58 or does not decode to exactly 32 bytes, the handler answers HTTP 400
with the mint-specific error and never reaches the instruction-construction
call (the `mintAuthority` field and decimals are irrelevant). -/
theorem c4_create_token_invalid_mint (mintAuthority mint : String) (decimals : Nat)
    (h : bs58Decode mint = none ∨ ∀ b, bs58Decode mint = some b → b.length ≠ 32) :
    createToken mintAuthority mint decimals = errResp "Invalid `mint` address" := by
  have hp : parsePubkey mint = none := by
    rw [parsePubkey]
    split
    · rfl
    · cases hd : bs58Decode mint with
      | none => rfl
      | some b =>
        rcases h with h | h
        · rw [hd] at h; cases h
        · show (if b.length = 32 then some b else none) = none
          rw [if_neg (h b hd)]
  rw [createToken, hp]

/-- Witness for C4 at a concrete malformed mint string. -/
theorem c4_create_token_invalid_mint_witness :
    (bs58Decode "bad!mint" = none ∨
      ∀ b, bs58Decode "bad!mint" = some b → b.length ≠ 32) ∧
    createToken "anything" "bad!mint" 6 = errResp "Invalid `mint` address" :=
  ⟨Or.inl (by decide),
   c4_create_token_invalid_mint "anything" "bad!mint" 6 (Or.inl (by decide))⟩

/-! ## Claim C10: `mint_token` performs no zero-amount validation -/

/-- **C10**: `mint_token` has no amount validation: with three parseable
addresses and `amount = 0` it answers HTTP 200 with the serialized
`mint_to` instruction (tag 7, zero amount, accounts mint/destination
writable and authority signer). -/
theorem c10_mint_token_zero_amount_succeeds (mint destination authority : String)
    (mb db ab : List Nat) (hm : parsePubkey mint = some mb)
    (hd : parsePubkey destination = some db) (ha : parsePubkey authority = some ab) :
    mintToken mint destination authority 0 =
      okResp (.tokenOk (bs58Encode splTokenId)
        [(bs58Encode mb, false, true), (bs58Encode db, false, true), (bs58Encode ab, true, false)]
        (base64Encode (7 :: u64LE 0))) := by
  rw [mintToken, hm, hd, ha]
  rfl

/-- Witness for C10: the all-ones (system-program) address for all three
fields and a zero amount. -/
theorem c10_mint_token_zero_amount_succeeds_witness :
    parsePubkey "11111111111111111111111111111111" = some (List.replicate 32 0) ∧
    mintToken "11111111111111111111111111111111" "11111111111111111111111111111111"
        "11111111111111111111111111111111" 0 =
      okResp (.tokenOk (bs58Encode splTokenId)
        [(bs58Encode (List.replicate 32 0), false, true),
         (bs58Encode (List.replicate 32 0), false, true),
         (bs58Encode (List.replicate 32 0), true, false)]
        (base64Encode (7 :: u64LE 0))) :=
  ⟨by decide,
   c10_mint_token_zero_amount_succeeds _ _ _ _ _ _ (by decide) (by decide) (by decide)⟩

/-! ## Claims C1, C7, C8: the signing path is dead

`sign_message` validates the secret to 32 bytes and then calls
`Keypair::from_bytes`, which requires `KEYPAIR_LENGTH = 64` bytes, so the
keypair construction fails for every well-formed request and the handler can
never reach the signing call. -/

theorem fromBytes_of_len_ne_64 (b : List Nat) (h : b.length ≠ 64) :
    EdKeypair.fromBytes b = Except.error "Keypair must be 64 bytes in length" := by
  rw [EdKeypair.fromBytes, if_neg h]

theorem signMessage_decoded (m s : String) (b : List Nat) (hm : m ≠ "") (hs : s ≠ "")
    (hd : bs58Decode s = some b) :
    signMessage m s =
      if b.length ≠ 32 then errResp "Secret key must be exactly 32 bytes"
      else
        match EdKeypair.fromBytes b with
        | Except.error e => errResp ("Invalid secret key: " ++ e)
        | Except.ok kp =>
          okResp (.signOk (base64Encode (edSign kp (strBytes m)))
            (bs58Encode kp.public.bytes) m) := by
  rw [signMessage, if_neg (by simp [hm, hs]), hd]

/-- **C1** (refuting theorem): for every non-empty message and every base-58
secret that decodes to exactly 32 bytes, `sign_message` answers HTTP 400
with `success = false` — never the claimed signature response — because the
32-byte seed is fed to `Keypair::from_bytes`, which demands 64 bytes. -/
theorem c1_sign_message_rejects_every_32_byte_seed (m s : String) (b : List Nat)
    (hm : m ≠ "") (hs : bs58Decode s = some b) (hb : b.length = 32) :
    (signMessage m s).status = 400 ∧ (signMessage m s).success = false := by
  have hsne : s ≠ "" := by
    intro he
    subst he
    have h0 : bs58Decode "" = some [] := rfl
    rw [h0] at hs
    injection hs with hb'
    rw [← hb'] at hb
    simp at hb
  have heq : signMessage m s =
      errResp ("Invalid secret key: " ++ "Keypair must be 64 bytes in length") := by
    rw [signMessage_decoded m s b hm hsne hs, if_neg (by omega),
      fromBytes_of_len_ne_64 b (by omega)]
  rw [heq]
  exact ⟨rfl, rfl⟩

/-- Witness for C1: the message `"hello"` with the all-zero 32-byte seed
(base-58 `"11111111111111111111111111111111"`). -/
theorem c1_sign_message_rejects_every_32_byte_seed_witness :
    ("hello" : String) ≠ "" ∧
    bs58Decode "11111111111111111111111111111111" = some (List.replicate 32 0) ∧
    (List.replicate 32 0 : List Nat).length = 32 ∧
    (signMessage "hello" "11111111111111111111111111111111").status = 400 ∧
    (signMessage "hello" "11111111111111111111111111111111").success = false := by
  have h := c1_sign_message_rejects_every_32_byte_seed "hello"
    "11111111111111111111111111111111" (List.replicate 32 0)
    (by decide) (by decide) (by decide)
  exact ⟨by decide, by decide, by decide, h.1, h.2⟩

/-- **C7** (refuting theorem): `sign_message` never succeeds at all — every
request, whatever the message and secret, is answered with HTTP 400 and
`success = false`, so no signature for the claimed sign-then-verify
round-trip is ever produced. -/
theorem c7_sign_message_never_succeeds (m s : String) :
    (signMessage m s).status = 400 ∧ (signMessage m s).success = false := by
  rw [signMessage]
  split
  · exact ⟨rfl, rfl⟩
  · split
    · exact ⟨rfl, rfl⟩
    · next secretBytes heq =>
      split
      · exact ⟨rfl, rfl⟩
      · next hlen =>
        rw [fromBytes_of_len_ne_64 secretBytes (by omega)]
        exact ⟨rfl, rfl⟩

/-- **C8** (refuting theorem): the spec's determinism scenario — signing
`"hello"` with a known 32-byte seed — produces no signature at all: the
handler answers HTTP 400 with the keypair-construction error, so there is no
reproducible 64-byte signature to speak of. -/
theorem c8_sign_known_seed_scenario_fails :
    signMessage "hello" "11111111111111111111111111111111" =
      errResp ("Invalid secret key: " ++ "Keypair must be 64 bytes in length") ∧
    (signMessage "hello" "11111111111111111111111111111111").status = 400 := by
  have h := signMessage_decoded "hello" "11111111111111111111111111111111"
    (List.replicate 32 0) (by decide) (by decide) (by decide)
  rw [h, if_neg (by decide), fromBytes_of_len_ne_64 (List.replicate 32 0) (by decide)]
  exact ⟨rfl, rfl⟩

/-! ## Claim C5: wrong-length secrets -/

/-- **C5** (counterexample): the claim quantifies over every request whose
secret is valid base-58 of decoded length ≠ 32, which includes the empty
secret and the empty message; those are answered with the missing-fields
error, not the secret-key length error.  The two instances below exhibit
both boundary cases. -/
theorem c5_empty_fields_get_missing_fields_error :
    (bs58Decode "" = some [] ∧ ([] : List Nat).length ≠ 32 ∧
      signMessage "hello" "" = errResp "Missing required fields" ∧
      signMessage "hello" "" ≠ errResp "Secret key must be exactly 32 bytes") ∧
    (bs58Decode (String.mk (List.replicate 64 '1')) = some (List.replicate 64 0) ∧
      (List.replicate 64 0 : List Nat).length ≠ 32 ∧
      signMessage "" (String.mk (List.replicate 64 '1')) = errResp "Missing required fields" ∧
      signMessage "" (String.mk (List.replicate 64 '1')) ≠
        errResp "Secret key must be exactly 32 bytes") := by
  refine ⟨⟨by decide, by decide, ?_, ?_⟩, ⟨by decide, by decide, ?_, ?_⟩⟩
  · rw [signMessage, if_pos (by simp)]
  · rw [signMessage, if_pos (by simp)]
    decide
  · rw [signMessage, if_pos (by simp)]
  · rw [signMessage, if_pos (by simp)]
    decide

theorem signMessage_wrong_length (m s : String) (b : List Nat)
    (hm : m ≠ "") (hs : s ≠ "") (hd : bs58Decode s = some b) (hb : b.length ≠ 32) :
    signMessage m s = errResp "Secret key must be exactly 32 bytes" := by
  rw [signMessage_decoded m s b hm hs hd, if_pos hb]

/-- **C5** (amended): for every request with non-empty message and non-empty
secret whose secret is valid base-58 decoding to a length other than 32
(including the 64-byte combined form), `sign_message` answers HTTP 400 with
the secret-key length error and produces no signature. -/
theorem c5_sign_message_rejects_wrong_length_secret (m s : String) (b : List Nat)
    (hm : m ≠ "") (hs : s ≠ "") (hd : bs58Decode s = some b) (hb : b.length ≠ 32) :
    signMessage m s = errResp "Secret key must be exactly 32 bytes" :=
  signMessage_wrong_length m s b hm hs hd hb

/-- Witness for the amended C5: the 64-byte combined form (base-58 of 64
zero bytes). -/
theorem c5_sign_message_rejects_wrong_length_secret_witness :
    ("hello" : String) ≠ "" ∧ String.mk (List.replicate 64 '1') ≠ "" ∧
    bs58Decode (String.mk (List.replicate 64 '1')) = some (List.replicate 64 0) ∧
    (List.replicate 64 0 : List Nat).length ≠ 32 ∧
    signMessage "hello" (String.mk (List.replicate 64 '1')) =
      errResp "Secret key must be exactly 32 bytes" :=
  ⟨by decide, by decide, by decide, by decide,
   c5_sign_message_rejects_wrong_length_secret "hello" (String.mk (List.replicate 64 '1'))
     (List.replicate 64 0) (by decide) (by decide) (by decide) (by decide)⟩

/-! ## Claim C2: `verify_message` on well-formed inputs

The claim asserts HTTP 200 for every 32-byte base-58 pubkey and every
64-byte base-64 signature.  It fails twice: an empty message is rejected as
a missing field, and a 32-byte value that is not a valid compressed Edwards
point is rejected by `PublicKey::from_bytes` (point decompression) with a
400 error.  With those two hypotheses added, the handler always answers
HTTP 200 with the boolean verification outcome. -/

/-- **C2** (counterexample): the byte string `2 ‖ 0³¹` is not a valid
compressed Edwards point, so `verify_message` answers 400 for its base-58
form even though it decodes to exactly 32 bytes and the signature decodes to
exactly 64 bytes; and a basepoint pubkey with an empty message is also
answered 400 (missing fields), not 200. -/
theorem c2_verify_message_not_always_ok :
    (bs58Decode "8opHzTAnfzRpPEx21XtnrVTX28YQuCpAjcn1PczScKh" = some (2 :: List.replicate 31 0) ∧
      (2 :: List.replicate 31 0 : List Nat).length = 32 ∧
      base64Decode "AAAAAAAAAAAAAAAAAAAAAAAAAAAAAAAAAAAAAAAAAAAAAAAAAAAAAAAAAAAAAAAAAAAAAAAAAAAAAAAAAAAAAA==" =
        some (List.replicate 64 0) ∧
      (List.replicate 64 0 : List Nat).length = 64 ∧
      (verifyMessage "hello"
        "AAAAAAAAAAAAAAAAAAAAAAAAAAAAAAAAAAAAAAAAAAAAAAAAAAAAAAAAAAAAAAAAAAAAAAAAAAAAAAAAAAAAAA=="
        "8opHzTAnfzRpPEx21XtnrVTX28YQuCpAjcn1PczScKh").status = 400 ∧
      (verifyMessage "hello"
        "AAAAAAAAAAAAAAAAAAAAAAAAAAAAAAAAAAAAAAAAAAAAAAAAAAAAAAAAAAAAAAAAAAAAAAAAAAAAAAAAAAAAAA=="
        "8opHzTAnfzRpPEx21XtnrVTX28YQuCpAjcn1PczScKh").success = false) ∧
    (bs58Decode "6x5SYnLroiN7WYq8NQYU9KHcH4YjpBbwpUfVu3EB7ieH" =
        some (88 :: List.replicate 31 102) ∧
      (88 :: List.replicate 31 102 : List Nat).length = 32 ∧
      (verifyMessage ""
        "AAAAAAAAAAAAAAAAAAAAAAAAAAAAAAAAAAAAAAAAAAAAAAAAAAAAAAAAAAAAAAAAAAAAAAAAAAAAAAAAAAAAAA=="
        "6x5SYnLroiN7WYq8NQYU9KHcH4YjpBbwpUfVu3EB7ieH").status = 400) := by
  refine ⟨⟨by decide, by decide, by decide, by decide, ?_, ?_⟩, by decide, by decide, ?_⟩
  · decide
  · decide
  · decide

/-- **C2** (amended): for every `verify_message` request with non-empty
fields whose pubkey is valid base-58 decoding to exactly 32 bytes that are
accepted by the Ed25519 public-key primitive (a decompressible curve point)
and whose signature is valid base-64 decoding to exactly 64 bytes, the call
answers HTTP 200 with `success = true` and the boolean `valid` equal to the
Ed25519 verification outcome; verification failure is reported through
`valid = false`, never through an error response. -/
theorem c2_verify_message_ok_on_valid_point (m sigT pk : String) (pb sb : List Nat)
    (P : EdPublicKey)
    (hm : m ≠ "") (hsig : sigT ≠ "") (hpk : pk ≠ "")
    (hdec : bs58Decode pk = some pb) (hlen : pb.length = 32)
    (hP : EdPublicKey.fromBytes pb = some P)
    (hsd : base64Decode sigT = some sb) (hsl : sb.length = 64) :
    verifyMessage m sigT pk = okResp (.verifyOk (dalekVerify (strBytes m) sb P) m pk) := by
  simp only [verifyMessage, hm, hsig, hpk, hdec, hlen, hP, hsd, hsl, edSigFromBytes,
    if_neg, ne_eq, not_true_eq_false, not_false_eq_true, or_self, if_false,
    false_or, or_false, if_true]

/-- Witness for the amended C2: the Ed25519 basepoint as public key, the
all-zero 64-byte signature, and the message `"hello"`. -/
theorem c2_verify_message_ok_on_valid_point_witness :
    ("hello" : String) ≠ "" ∧
    bs58Decode "6x5SYnLroiN7WYq8NQYU9KHcH4YjpBbwpUfVu3EB7ieH" =
      some (88 :: List.replicate 31 102) ∧
    (88 :: List.replicate 31 102 : List Nat).length = 32 ∧
    EdPublicKey.fromBytes (88 :: List.replicate 31 102) =
      some ⟨88 :: List.replicate 31 102,
        (15112221349535400772501151409588531511454012693041857206046113283949847762202,
         46316835694926478169428394003475163141307993866256225615783033603165251855960)⟩ ∧
    base64Decode
        "AAAAAAAAAAAAAAAAAAAAAAAAAAAAAAAAAAAAAAAAAAAAAAAAAAAAAAAAAAAAAAAAAAAAAAAAAAAAAAAAAAAAAA==" =
      some (List.replicate 64 0) ∧
    verifyMessage "hello"
        "AAAAAAAAAAAAAAAAAAAAAAAAAAAAAAAAAAAAAAAAAAAAAAAAAAAAAAAAAAAAAAAAAAAAAAAAAAAAAAAAAAAAAA=="
        "6x5SYnLroiN7WYq8NQYU9KHcH4YjpBbwpUfVu3EB7ieH" =
      okResp (.verifyOk
        (dalekVerify (strBytes "hello") (List.replicate 64 0)
          ⟨88 :: List.replicate 31 102,
            (15112221349535400772501151409588531511454012693041857206046113283949847762202,
             46316835694926478169428394003475163141307993866256225615783033603165251855960)⟩)
        "hello" "6x5SYnLroiN7WYq8NQYU9KHcH4YjpBbwpUfVu3EB7ieH") :=
  ⟨by decide, by decide, by decide, by decide, by decide,
   c2_verify_message_ok_on_valid_point "hello"
     "AAAAAAAAAAAAAAAAAAAAAAAAAAAAAAAAAAAAAAAAAAAAAAAAAAAAAAAAAAAAAAAAAAAAAAAAAAAAAAAAAAAAAA=="
     "6x5SYnLroiN7WYq8NQYU9KHcH4YjpBbwpUfVu3EB7ieH"
     (88 :: List.replicate 31 102) (List.replicate 64 0)
     ⟨88 :: List.replicate 31 102,
       (15112221349535400772501151409588531511454012693041857206046113283949847762202,
        46316835694926478169428394003475163141307993866256225615783033603165251855960)⟩
     (by decide) (by decide) (by decide) (by decide) (by decide) (by decide) (by decide)
     (by decide)⟩

/-! ## Claim C6: keypair response layout -/

/-- **C6**: for every generated keypair (any 32-byte seed drawn from the
operating-system RNG), the response's `secret` field decodes from base-58 to
exactly 64 bytes laid out as seed (first 32) followed by public key (last
32), and the `pubkey` field is the base-58 encoding of those last 32 bytes,
which are the Ed25519 public key derived from the seed (clamped
`SHA-512(seed)` scalar times the basepoint, compressed). -/
theorem c6_keypair_secret_layout (seed : List Nat) (hlen : seed.length = 32)
    (hlt : ∀ x ∈ seed, x < 256) :
    generateKeypairInternal seed =
      okResp (.keypairOk (bs58Encode (derivePublic seed))
        (bs58Encode (seed ++ derivePublic seed))) ∧
    bs58Decode (bs58Encode (seed ++ derivePublic seed)) = some (seed ++ derivePublic seed) ∧
    (seed ++ derivePublic seed).length = 64 ∧
    (seed ++ derivePublic seed).take 32 = seed ∧
    (seed ++ derivePublic seed).drop 32 = derivePublic seed ∧
    derivePublic seed = edCompress (edSMul (expandedScalar seed) edB) := by
  have hplen : (derivePublic seed).length = 32 := edCompress_length _
  refine ⟨rfl, ?_, ?_, ?_, ?_, rfl⟩
  · apply bs58_roundtrip
    intro x hx
    rcases List.mem_append.mp hx with h | h
    · exact hlt x h
    · exact edCompress_mem_lt _ x h
  · rw [List.length_append, hlen, hplen]
  · rw [← hlen, List.take_left]
  · rw [← hlen, List.drop_left]

/-- Witness for C6 at the all-zero seed. -/
theorem c6_keypair_secret_layout_witness :
    (List.replicate 32 0 : List Nat).length = 32 ∧
    (∀ x ∈ (List.replicate 32 0 : List Nat), x < 256) ∧
    bs58Decode (bs58Encode (List.replicate 32 0 ++ derivePublic (List.replicate 32 0))) =
      some (List.replicate 32 0 ++ derivePublic (List.replicate 32 0)) ∧
    (List.replicate 32 0 ++ derivePublic (List.replicate 32 0)).length = 64 :=
  ⟨by decide, by decide,
   (c6_keypair_secret_layout (List.replicate 32 0) (by decide) (by decide)).2.1,
   (c6_keypair_secret_layout (List.replicate 32 0) (by decide) (by decide)).2.2.1⟩
